import Mathlib

/-!
Shallow embedding of the FocusGuard web app core (`src/app.js`).

The source file contains two near-identical variants of the app logic; the
embedding below follows the second variant (the one with the READING state,
the yaw signal and the `PITCH_MAX_DOWN`/`PITCH_MIN_DOWN` reading bracket),
which is the variant the specification describes.

Modelling conventions:
 - JS numbers used for landmark coordinates, metric values and thresholds are
   modelled as rationals (`ℚ`); timestamps and durations as integers (`ℤ`).
 - A JS division whose denominator the source does not guard is modelled as a
   fallible operation (`jsDiv`, returning `Option ℚ`): JS would produce a
   non-finite float there, which the classification logic cannot meaningfully
   consume, so reaching that division is modelled as an error (`none`).
 - `Math.hypot` (a floating-point square root of a sum of squares) is not
   exactly representable on `ℚ`; `calculateEAR` is therefore parametrised by
   the norm function it uses.  Every property proved about it assumes only
   facts true of the real `Math.hypot` (such as `hypot 0 0 = 0`).
 - The module-level mutable variables of `app.js` are collected in `AppState`;
   each event handler becomes a function `AppState → ... → AppState`.
   `playAlarm`/`stopAlarm` act on an `alarmOn` flag recording whether some
   audio element is currently playing.
 - In JS, `now - warningStartTime` with `warningStartTime = null` coerces
   `null` to `0`; this is modelled by `Option.getD 0`.
-/

namespace FocusGuard

/-- One normalized face-mesh landmark (the `z` coordinate is never read by the
core functions and is omitted). -/
structure Point where
  x : ℚ
  y : ℚ
deriving DecidableEq

/-- A landmark frame: positionally indexed landmarks, total since the mesh
library guarantees all indices are present whenever a face is detected. -/
abbrev Landmarks : Type := Nat → Point

/-- Unguarded JS division: `none` models the reachable division-by-zero. -/
def jsDiv (a b : ℚ) : Option ℚ :=
  if b = 0 then none else some (a / b)

/-- Embeds `calculatePitch` of `app.js`: ratio-based pitch from nose tip,
chin and forehead-top landmarks.  The division by the vertical span is
unguarded in the source. -/
def calculatePitch (lm : Landmarks) : Option ℚ :=
  let nose := lm 1
  let chin := lm 152
  let top := lm 10
  let midY := (top.y + chin.y) / 2
  let verticalSpan := chin.y - top.y
  let noseOffset := nose.y - midY
  (jsDiv noseOffset verticalSpan).map (fun r => r * (-90))

/-- Embeds `calculateYaw` of `app.js`: horizontal nose-to-eye-corner
asymmetry, with the source's explicit `faceSpan === 0` guard returning `0`. -/
def calculateYaw (lm : Landmarks) : ℚ :=
  let nose := lm 1
  let leftEyeOuter := lm 33
  let rightEyeOuter := lm 263
  let leftDist := |nose.x - leftEyeOuter.x|
  let rightDist := |nose.x - rightEyeOuter.x|
  let faceSpan := |leftEyeOuter.x - rightEyeOuter.x|
  if faceSpan = 0 then 0
  else
    let diff := leftDist - rightDist
    diff / faceSpan * 90

/-- Embeds `calculateGazeRatio` of `app.js`: vertical iris position within the
eyelid span, averaged over both eyes.  Both divisions are unguarded in the
source. -/
def calculateGazeRatio (lm : Landmarks) : Option ℚ := do
  let leftIris := lm 468
  let rightIris := lm 473
  let leftTop := (lm 159).y
  let leftBottom := (lm 145).y
  let rightTop := (lm 386).y
  let rightBottom := (lm 374).y
  let leftRatio ← jsDiv (leftIris.y - leftTop) (leftBottom - leftTop)
  let rightRatio ← jsDiv (rightIris.y - rightTop) (rightBottom - rightTop)
  pure ((leftRatio + rightRatio) / 2)

/-- Embeds the inner `eyeEAR` helper of `calculateEAR`: two vertical
distances over twice the horizontal corner distance; the division is
unguarded in the source.  `hypot` abstracts `Math.hypot`. -/
def eyeEAR (hypot : ℚ → ℚ → ℚ) (lm : Landmarks)
    (p1 p2 p3 p4 p5 p6 : Nat) : Option ℚ :=
  let v1 := hypot ((lm p2).x - (lm p6).x) ((lm p2).y - (lm p6).y)
  let v2 := hypot ((lm p3).x - (lm p5).x) ((lm p3).y - (lm p5).y)
  let h := hypot ((lm p1).x - (lm p4).x) ((lm p1).y - (lm p4).y)
  jsDiv (v1 + v2) (2 * h)

/-- Embeds `calculateEAR` of `app.js`: average of the two per-eye aspect
ratios at the source's fixed landmark indices. -/
def calculateEAR (hypot : ℚ → ℚ → ℚ) (lm : Landmarks) : Option ℚ := do
  let leftEAR ← eyeEAR hypot lm 33 160 158 133 153 144
  let rightEAR ← eyeEAR hypot lm 362 387 385 263 380 373
  pure ((leftEAR + rightEAR) / 2)

/-- A concrete stand-in norm used to instantiate `hypot` in closed statements;
it agrees with `Math.hypot` on the facts the theorems assume (it vanishes
exactly at the origin and is nonnegative). -/
def hypotAbs (dx dy : ℚ) : ℚ := |dx| + |dy|

/-- Embeds the `THRESHOLDS` configuration object shape. -/
structure Thresholds where
  pitchMaxDown : ℚ
  pitchMinDown : ℚ
  yawDistracted : ℚ
  gazeDown : ℚ
  earClosed : ℚ
  delayMs : ℤ
  sleepDelayMs : ℤ
deriving DecidableEq

/-- The `THRESHOLDS` constant of the embedded variant of `app.js`. -/
def THRESHOLDS : Thresholds :=
  { pitchMaxDown := -20
    pitchMinDown := -2
    yawDistracted := 45
    gazeDown := 0.58
    earClosed := 0.18
    delayMs := 4000
    sleepDelayMs := 3000 }

/-- The four values of the `focusState` variable. -/
inductive FocusState where
  | FOCUSED
  | READING
  | WARNING
  | DISTRACTED
deriving DecidableEq, Repr

/-- The per-frame scalar signals derived from a landmark frame. -/
structure MetricSample where
  pitch : ℚ
  yaw : ℚ
  gaze : ℚ
  ear : ℚ

/-- Embeds `isSlumpingDown`: `pitch < THRESHOLDS.PITCH_MAX_DOWN`. -/
def isSlumpingDown (cfg : Thresholds) (m : MetricSample) : Bool :=
  decide (m.pitch < cfg.pitchMaxDown)

/-- Embeds `isBowingToRead`:
`pitch < PITCH_MIN_DOWN && pitch >= PITCH_MAX_DOWN`. -/
def isBowingToRead (cfg : Thresholds) (m : MetricSample) : Bool :=
  decide (m.pitch < cfg.pitchMinDown) && decide (cfg.pitchMaxDown ≤ m.pitch)

/-- Embeds `isHeadTurned`: `Math.abs(yaw) > YAW_DISTRACTED`. -/
def isHeadTurned (cfg : Thresholds) (m : MetricSample) : Bool :=
  decide (cfg.yawDistracted < |m.yaw|)

/-- Embeds `isGazeDown`: `gaze > GAZE_DOWN`. -/
def isGazeDown (cfg : Thresholds) (m : MetricSample) : Bool :=
  decide (cfg.gazeDown < m.gaze)

/-- Embeds `isClosed`: `ear < EAR_CLOSED`. -/
def isClosed (cfg : Thresholds) (m : MetricSample) : Bool :=
  decide (m.ear < cfg.earClosed)

/-- Embeds `isReading`:
`isBowingToRead && !isHeadTurned && !isClosed`. -/
def isReadingSignal (cfg : Thresholds) (m : MetricSample) : Bool :=
  isBowingToRead cfg m && !isHeadTurned cfg m && !isClosed cfg m

/-- Embeds `distractedSignal`:
`isHeadTurned || isClosed || isSlumpingDown ||
 (isBowingToRead && !isReading && !isGazeDown)`. -/
def distractedSignal (cfg : Thresholds) (m : MetricSample) : Bool :=
  isHeadTurned cfg m || isClosed cfg m || isSlumpingDown cfg m ||
    (isBowingToRead cfg m && !isReadingSignal cfg m && !isGazeDown cfg m)

/-- The module-level mutable variables of `app.js` (the unused
`eyesClosedStartTime` variable, and the DOM/audio element handles, are not
modelled; `currentAudio` is abstracted to the flag `alarmOn`). -/
structure AppState where
  isGuarding : Bool
  focusState : FocusState
  distractionCount : ℕ
  focusStartTime : ℤ
  lastUpdateTime : ℤ
  totalFocusMs : ℤ
  warningStartTime : Option ℤ
  alarmOn : Bool
deriving DecidableEq, Repr

/-- Embeds `updateStats`: bail out when not guarding, otherwise advance
`lastUpdateTime` and accrue the elapsed delta into `totalFocusMs` exactly in
the FOCUSED and READING states.  The display formatting at the end of the
source function only writes to the DOM and is not modelled. -/
def updateStats (s : AppState) (now : ℤ) : AppState :=
  if s.isGuarding = false then s
  else
    let dt := now - s.lastUpdateTime
    let s1 := { s with lastUpdateTime := now }
    if s1.focusState = .FOCUSED ∨ s1.focusState = .READING then
      { s1 with totalFocusMs := s1.totalFocusMs + dt }
    else s1

/-- Embeds the observable effect of `playAlarm`: some audio element ends up
playing (which randomly-chosen clip is playing is not modelled). -/
def playAlarm (s : AppState) : AppState := { s with alarmOn := true }

/-- Embeds `stopAlarm`: the playing audio element, if any, is paused and
dropped. -/
def stopAlarm (s : AppState) : AppState := { s with alarmOn := false }

/-- Embeds the focus-logic block of `onResults` for a frame with a detected
face, given the classifier outputs `d` (`distractedSignal`) and `r`
(`isReading`) and the current time. -/
def focusLogic (cfg : Thresholds) (s : AppState) (now : ℤ) (d r : Bool) :
    AppState :=
  match s.focusState with
  | .FOCUSED | .READING =>
    if d then { s with focusState := .WARNING, warningStartTime := some now }
    else if r then { s with focusState := .READING }
    else { s with focusState := .FOCUSED }
  | .WARNING =>
    if !d then
      { s with focusState := if r then .READING else .FOCUSED,
               warningStartTime := none }
    else if cfg.delayMs < now - s.warningStartTime.getD 0 then
      playAlarm { s with focusState := .DISTRACTED,
                         distractionCount := s.distractionCount + 1 }
    else s
  | .DISTRACTED =>
    if !d then
      stopAlarm { s with focusState := if r then .READING else .FOCUSED }
    else s

/-- Embeds the no-face branch of `onResults`: only the FOCUSED and WARNING
states react, and only while guarding. -/
def noFaceLogic (cfg : Thresholds) (s : AppState) (now : ℤ) : AppState :=
  if s.isGuarding then
    match s.focusState with
    | .FOCUSED => { s with focusState := .WARNING,
                           warningStartTime := some now }
    | .WARNING =>
      if cfg.delayMs < now - s.warningStartTime.getD 0 then
        playAlarm { s with focusState := .DISTRACTED,
                           distractionCount := s.distractionCount + 1 }
      else s
    | _ => s
  else s

/-- Embeds `onResults` for a face frame whose classifier outputs are already
known: `updateStats` first, then the focus logic (canvas drawing and DOM
updates are not modelled). -/
def onResultsSignals (cfg : Thresholds) (s : AppState) (now : ℤ)
    (d r : Bool) : AppState :=
  focusLogic cfg (updateStats s now) now d r

/-- Embeds `onResults` for a face frame with the given metric sample, running
the threshold classifier on it. -/
def onResultsSample (cfg : Thresholds) (s : AppState) (now : ℤ)
    (m : MetricSample) : AppState :=
  onResultsSignals cfg s now (distractedSignal cfg m) (isReadingSignal cfg m)

/-- Embeds `onResults` for a frame with no detected face. -/
def onResultsNoFace (cfg : Thresholds) (s : AppState) (now : ℤ) : AppState :=
  noFaceLogic cfg (updateStats s now) now

/-- Embeds the `startBtn` click listener (DOM class toggling and the audio
context poke, which do not touch the modelled variables, are omitted). -/
def startClick (s : AppState) (now : ℤ) : AppState :=
  { s with isGuarding := true, focusStartTime := now, lastUpdateTime := now }

/-- Embeds the `stopBtn` click listener: stop guarding, stop the alarm and
force the FOCUSED badge state. -/
def stopClick (s : AppState) : AppState :=
  let s1 := stopAlarm { s with isGuarding := false }
  { s1 with focusState := .FOCUSED }

/-- The module-level initial values of the mutable variables, with `t0` the
load-time clock value. -/
def initGlobals (t0 : ℤ) : AppState :=
  { isGuarding := false
    focusState := .FOCUSED
    distractionCount := 0
    focusStartTime := t0
    lastUpdateTime := t0
    totalFocusMs := 0
    warningStartTime := none
    alarmOn := false }

/-- One classifier-level input tick: a timestamp plus the two classifier
outputs of the frame processed at that time. -/
structure Tick where
  time : ℤ
  distracted : Bool
  reading : Bool
deriving DecidableEq, Repr

/-- Processing of a single face-frame tick. -/
def stepTick (cfg : Thresholds) (s : AppState) (tk : Tick) : AppState :=
  onResultsSignals cfg s tk.time tk.distracted tk.reading

/-- Processing of a list of face-frame ticks in order. -/
def runTicks (cfg : Thresholds) (s : AppState) (ts : List Tick) : AppState :=
  ts.foldl (stepTick cfg) s

/-- A per-frame detection outcome: a face frame with its classifier outputs,
or no detected face. -/
inductive FrameInput where
  | face (d r : Bool)
  | noFace
deriving DecidableEq

/-- Processing of a single timed frame of either kind. -/
def stepFrame (cfg : Thresholds) (s : AppState) (t : ℤ) (inp : FrameInput) :
    AppState :=
  match inp with
  | .face d r => onResultsSignals cfg s t d r
  | .noFace => onResultsNoFace cfg s t

/-- Processing of a list of timed frames in order. -/
def runFrames (cfg : Thresholds) (s : AppState)
    (evs : List (ℤ × FrameInput)) : AppState :=
  evs.foldl (fun s e => stepFrame cfg s e.1 e.2) s

/-! Concrete frames and samples used in closed statements. -/

/-- A degenerate frame in which every landmark sits at the origin; in
particular the two horizontal corner landmarks of each eye coincide and both
eyelid spans are zero. -/
def flatFrame : Landmarks := fun _ => { x := 0, y := 0 }

/-- A frame with nonzero eyelid spans (the lower-lid landmarks 145 and 374
sit strictly below the upper-lid landmarks 159 and 386). -/
def openEyeFrame : Landmarks := fun i =>
  if i = 145 ∨ i = 374 then { x := 0, y := 1 } else { x := 0, y := 0 }

/-- The metric sample of the scenario frames: pitch −25 (slumping), with all
other signals non-distracting under `THRESHOLDS`. -/
def sampleSlump : MetricSample :=
  { pitch := -25, yaw := 0, gaze := 0, ear := 0.3 }

/-- The classifier reports `sampleSlump` as distracted under `THRESHOLDS`. -/
theorem distractedSignal_sampleSlump :
    distractedSignal THRESHOLDS sampleSlump = true := by
  norm_num [distractedSignal, isHeadTurned, isClosed, isSlumpingDown,
    isBowingToRead, isReadingSignal, isGazeDown, sampleSlump, THRESHOLDS]

/-- The classifier does not report `sampleSlump` as reading under
`THRESHOLDS`. -/
theorem isReadingSignal_sampleSlump :
    isReadingSignal THRESHOLDS sampleSlump = false := by
  norm_num [isHeadTurned, isClosed, isSlumpingDown,
    isBowingToRead, isReadingSignal, isGazeDown, sampleSlump, THRESHOLDS]

/-- The session state after the slumping frame at t = 0, starting from a
fresh session begun at time 0. -/
def c4state1 : AppState :=
  onResultsSample THRESHOLDS (startClick (initGlobals 0) 0) 0 sampleSlump

/-- The session state after the further slumping frame at t = 3000. -/
def c4state2 : AppState := onResultsSample THRESHOLDS c4state1 3000 sampleSlump

/-- The session state after the further slumping frame at t = 4500. -/
def c4state3 : AppState := onResultsSample THRESHOLDS c4state2 4500 sampleSlump

/-- C4: with the source `THRESHOLDS` (pitchMaxDown = −20, pitchMinDown = −2,
yawDistracted = 45, gazeDown = 0.58, earClosed = 0.18, delayMs = 4000),
starting a session in FOCUSED with counter 0 and feeding frames with
pitch = −25 and otherwise non-distracting signals: at t = 0 the state moves
to WARNING with warning start 0; at t = 3000 it stays WARNING with the
counter unchanged; at t = 4500 it moves to DISTRACTED, the counter becomes 1
and the alarm is triggered. -/
theorem c4_slumping_scenario :
    c4state1.focusState = .WARNING ∧ c4state1.warningStartTime = some 0 ∧
    c4state2.focusState = .WARNING ∧ c4state2.distractionCount = 0 ∧
    c4state3.focusState = .DISTRACTED ∧ c4state3.distractionCount = 1 ∧
    c4state3.alarmOn = true := by
  simp only [c4state1, c4state2, c4state3, onResultsSample,
    distractedSignal_sampleSlump, isReadingSignal_sampleSlump]
  decide

/-- C6: whenever a sample's pitch is below `pitchMaxDown`, the slumping
signal is set and the classifier reports distracted, independently of the
yaw, gaze and EAR components of the sample. -/
theorem c6_slumping_distracted (cfg : Thresholds) (m : MetricSample)
    (h : m.pitch < cfg.pitchMaxDown) :
    isSlumpingDown cfg m = true ∧ distractedSignal cfg m = true := by
  have hs : isSlumpingDown cfg m = true := by
    simp [isSlumpingDown]
    exact h
  exact ⟨hs, by simp [distractedSignal, hs]⟩

/-- Witness for C6 at the concrete sample `sampleSlump`. -/
theorem c6_witness :
    sampleSlump.pitch < THRESHOLDS.pitchMaxDown ∧
      (isSlumpingDown THRESHOLDS sampleSlump = true ∧
        distractedSignal THRESHOLDS sampleSlump = true) :=
  ⟨by norm_num [sampleSlump, THRESHOLDS],
    c6_slumping_distracted THRESHOLDS sampleSlump
      (by norm_num [sampleSlump, THRESHOLDS])⟩

/-- C8: when the two outer eye-corner landmarks have the same x-coordinate,
`calculateYaw` takes its degenerate-frame guard and returns exactly 0
instead of dividing by the zero inter-eye span. -/
theorem c8_yaw_degenerate (lm : Landmarks) (h : (lm 33).x = (lm 263).x) :
    calculateYaw lm = 0 := by
  simp [calculateYaw, h]

/-- Witness for C8 at the degenerate frame `flatFrame`. -/
theorem c8_witness :
    (flatFrame 33).x = (flatFrame 263).x ∧ calculateYaw flatFrame = 0 :=
  ⟨rfl, c8_yaw_degenerate flatFrame rfl⟩

/-- C5 counterexample: at the frame `flatFrame`, whose eye-corner landmarks
coincide, `calculateEAR` does not return a defined value: the unguarded
division by the zero eye width is reached and the computation aborts
(`Math.hypot` is instantiated with a norm that, like the real one, vanishes
at the origin). -/
theorem c5_counterexample : calculateEAR hypotAbs flatFrame = none := by
  simp [calculateEAR, eyeEAR, hypotAbs, flatFrame, jsDiv]

/-- C5 amended: `calculateEAR` has no zero-width guard.  For any norm
function that vanishes at the origin (as `Math.hypot` does) and any frame in
which an eye's two horizontal corner landmarks coincide, the division's
error branch is reached and no neutral value is substituted; only
`calculateYaw` guards its degenerate case. -/
theorem c5_ear_unguarded (hypot : ℚ → ℚ → ℚ) (lm : Landmarks)
    (h0 : hypot 0 0 = 0) (hc : lm 33 = lm 133 ∨ lm 362 = lm 263) :
    calculateEAR hypot lm = none := by
  rcases hc with hc | hc
  · simp [calculateEAR, eyeEAR, hc, h0, jsDiv]
  · cases hl : eyeEAR hypot lm 33 160 158 133 153 144 <;>
      simp [calculateEAR, eyeEAR, hc, h0, jsDiv, hl]

/-- Witness for C5 (amended) at the frame `flatFrame`. -/
theorem c5_witness :
    hypotAbs 0 0 = 0 ∧ flatFrame 33 = flatFrame 133 ∧
      calculateEAR hypotAbs flatFrame = none :=
  ⟨by simp [hypotAbs], rfl,
    c5_ear_unguarded hypotAbs flatFrame (by simp [hypotAbs]) (Or.inl rfl)⟩

/-- C9: the gaze-ratio computation divides by the eyelid spans with no
guard: at a frame whose eyelid landmarks coincide vertically the
division-by-zero branch is reached (no neutral value is substituted, unlike
the yaw guard), and whenever both spans are nonzero the computation
succeeds. -/
theorem c9_gaze_unguarded :
    calculateGazeRatio flatFrame = none ∧
      ∀ lm : Landmarks, (lm 145).y - (lm 159).y ≠ 0 →
        (lm 374).y - (lm 386).y ≠ 0 →
        (calculateGazeRatio lm).isSome = true := by
  constructor
  · simp [calculateGazeRatio, flatFrame, jsDiv]
  · intro lm h1 h2
    simp [calculateGazeRatio, jsDiv, h1, h2]

/-- Witness for C9 at the frame `openEyeFrame`. -/
theorem c9_witness : (calculateGazeRatio openEyeFrame).isSome = true :=
  c9_gaze_unguarded.2 openEyeFrame (by norm_num [openEyeFrame])
    (by norm_num [openEyeFrame])

/-- A concrete end state of a session that accumulated statistics: three
distractions, five seconds of focus, with the alarm ringing. -/
def priorSession : AppState :=
  { isGuarding := true
    focusState := .DISTRACTED
    distractionCount := 3
    focusStartTime := 0
    lastUpdateTime := 9000
    totalFocusMs := 5000
    warningStartTime := some 1000
    alarmOn := true }

/-- C2 counterexample: pressing stop and then start after `priorSession`
does not reset the session statistics to zero: `totalFocusMs` stays 5000 and
`distractionCount` stays 3. -/
theorem c2_counterexample :
    ¬ ((startClick (stopClick priorSession) 10000).totalFocusMs = 0 ∧
        (startClick (stopClick priorSession) 10000).distractionCount = 0) := by
  decide

/-- C2 amended: pressing stop and then start resets `focusState` to FOCUSED
and clears the pending alarm, but the session statistics are NOT reset:
`totalFocusMs` and `distractionCount` keep the prior session's accumulated
values (no handler ever zeroes them). -/
theorem c2_stop_start (s : AppState) (now : ℤ) :
    (startClick (stopClick s) now).focusState = .FOCUSED ∧
    (startClick (stopClick s) now).alarmOn = false ∧
    (startClick (stopClick s) now).isGuarding = true ∧
    (startClick (stopClick s) now).totalFocusMs = s.totalFocusMs ∧
    (startClick (stopClick s) now).distractionCount = s.distractionCount := by
  cases s
  simp [startClick, stopClick, stopAlarm]

/-! Field-preservation facts about `updateStats`: the statistics tick never
touches the guarding flag, the focus state, the counter, the warning
timestamp or the alarm. -/

theorem updateStats_isGuarding (s : AppState) (now : ℤ) :
    (updateStats s now).isGuarding = s.isGuarding := by
  simp only [updateStats]
  split_ifs <;> rfl

theorem updateStats_focusState (s : AppState) (now : ℤ) :
    (updateStats s now).focusState = s.focusState := by
  simp only [updateStats]
  split_ifs <;> rfl

theorem updateStats_distractionCount (s : AppState) (now : ℤ) :
    (updateStats s now).distractionCount = s.distractionCount := by
  simp only [updateStats]
  split_ifs <;> rfl

theorem updateStats_warningStartTime (s : AppState) (now : ℤ) :
    (updateStats s now).warningStartTime = s.warningStartTime := by
  simp only [updateStats]
  split_ifs <;> rfl

/-- On a guarding state away from READING, the no-face branch coincides with
the face branch fed the constant classification (distracted, not reading). -/
theorem noFaceLogic_eq_focusLogic (cfg : Thresholds) (s : AppState) (now : ℤ)
    (hg : s.isGuarding = true) (hr : s.focusState ≠ .READING) :
    noFaceLogic cfg s now = focusLogic cfg s now true false := by
  unfold noFaceLogic focusLogic
  rw [hg]
  cases hsf : s.focusState <;> simp_all

/-- A session state sitting in READING (reachable by one calm reading frame
after start). -/
def readingState : AppState :=
  { isGuarding := true
    focusState := .READING
    distractionCount := 0
    focusStartTime := 0
    lastUpdateTime := 0
    totalFocusMs := 0
    warningStartTime := none
    alarmOn := false }

/-- C1 counterexample: in the READING state of an active session, a no-face
frame is NOT processed like a face frame classified as distracted and not
reading: the no-face branch leaves the state READING while the face branch
moves it to WARNING. -/
theorem c1_counterexample :
    onResultsNoFace THRESHOLDS readingState 100 ≠
      onResultsSignals THRESHOLDS readingState 100 true false := by
  decide

/-- C1 amended: during an active session, in every state except READING
(i.e. FOCUSED, WARNING or DISTRACTED, with any warning-start timestamp and
any current time), a no-face frame produces exactly the same next state,
counter update and alarm effects as a face frame classified as
`isDistracted = true, isReading = false`; in READING the no-face branch
leaves the state unchanged instead of entering WARNING. -/
theorem c1_noface_equiv (cfg : Thresholds) (s : AppState) (now : ℤ)
    (hg : s.isGuarding = true) (hr : s.focusState ≠ .READING) :
    onResultsNoFace cfg s now = onResultsSignals cfg s now true false := by
  unfold onResultsNoFace onResultsSignals
  refine noFaceLogic_eq_focusLogic cfg (updateStats s now) now ?_ ?_
  · rw [updateStats_isGuarding]; exact hg
  · rw [updateStats_focusState]; exact hr

/-- Witness for C1 (amended) just after session start, in FOCUSED. -/
theorem c1_witness :
    (startClick (initGlobals 0) 0).isGuarding = true ∧
    (startClick (initGlobals 0) 0).focusState ≠ .READING ∧
    onResultsNoFace THRESHOLDS (startClick (initGlobals 0) 0) 50 =
      onResultsSignals THRESHOLDS (startClick (initGlobals 0) 0) 50 true
        false :=
  ⟨rfl, by decide,
    c1_noface_equiv THRESHOLDS (startClick (initGlobals 0) 0) 50 rfl
      (by decide)⟩

/-- The C10 invariant: a WARNING state carries a recorded warning-start
timestamp. -/
def warningHasStart (s : AppState) : Prop :=
  s.focusState = .WARNING → s.warningStartTime.isSome = true

theorem warningHasStart_focusLogic (cfg : Thresholds) (s : AppState)
    (now : ℤ) (d r : Bool) (h : warningHasStart s) :
    warningHasStart (focusLogic cfg s now d r) := by
  unfold warningHasStart focusLogic at *
  cases hsf : s.focusState <;>
    simp_all [playAlarm, stopAlarm] <;>
    split_ifs <;> simp_all

theorem warningHasStart_noFaceLogic (cfg : Thresholds) (s : AppState)
    (now : ℤ) (h : warningHasStart s) :
    warningHasStart (noFaceLogic cfg s now) := by
  unfold warningHasStart noFaceLogic at *
  cases hsf : s.focusState <;>
    simp_all [playAlarm] <;>
    split_ifs <;> simp_all

theorem warningHasStart_stepFrame (cfg : Thresholds) (s : AppState) (t : ℤ)
    (inp : FrameInput) (h : warningHasStart s) :
    warningHasStart (stepFrame cfg s t inp) := by
  have h1 : warningHasStart (updateStats s t) := by
    unfold warningHasStart
    rw [updateStats_focusState, updateStats_warningStartTime]
    exact h
  cases inp with
  | face d r => exact warningHasStart_focusLogic cfg _ t d r h1
  | noFace => exact warningHasStart_noFaceLogic cfg _ t h1

theorem warningHasStart_runFrames (cfg : Thresholds)
    (evs : List (ℤ × FrameInput)) :
    ∀ s : AppState, warningHasStart s →
      warningHasStart (runFrames cfg s evs) := by
  induction evs with
  | nil => exact fun s h => h
  | cons e rest ih =>
    exact fun s h => ih _ (warningHasStart_stepFrame cfg s e.1 e.2 h)

/-- C10: in every state reachable from the session-start configuration
(FOCUSED, no warning-start) by any sequence of timed face or no-face
frames, being in WARNING implies the warning-start timestamp is recorded,
so the elapsed-time comparison in the WARNING branch never sees a null
start. -/
theorem c10_warning_start_recorded (cfg : Thresholds) (t0 : ℤ)
    (evs : List (ℤ × FrameInput))
    (h : (runFrames cfg (startClick (initGlobals t0) t0) evs).focusState =
      .WARNING) :
    (runFrames cfg (startClick (initGlobals t0) t0)
        evs).warningStartTime.isSome = true :=
  warningHasStart_runFrames cfg evs _
    (fun hw => by simp [startClick, initGlobals] at hw) h

/-- Witness for C10: one distracted face frame reaches WARNING with a
recorded start. -/
theorem c10_witness :
    (runFrames THRESHOLDS (startClick (initGlobals 0) 0)
        [(0, .face true false)]).focusState = .WARNING ∧
    (runFrames THRESHOLDS (startClick (initGlobals 0) 0)
        [(0, .face true false)]).warningStartTime.isSome = true :=
  ⟨by decide, c10_warning_start_recorded THRESHOLDS 0 _ (by decide)⟩

/-- Processing one calm tick (not distracted, not reading) from a guarding
FOCUSED state: the clock advances, the elapsed delta is accrued, and
everything else is unchanged. -/
theorem stepTick_calm (cfg : Thresholds) (s : AppState) (t : ℤ)
    (hg : s.isGuarding = true) (hf : s.focusState = .FOCUSED) :
    stepTick cfg s { time := t, distracted := false, reading := false } =
      { s with lastUpdateTime := t,
               totalFocusMs := s.totalFocusMs + (t - s.lastUpdateTime) } := by
  obtain ⟨g, fs, dc, fst, lut, tfm, wst, al⟩ := s
  simp only at hg hf
  subst hg hf
  simp [stepTick, onResultsSignals, updateStats, focusLogic]

/-- The all-calm frame sequence of C7: `n` frames spaced `dt` apart starting
one step after `t0`. -/
def statsTicks (t0 dt : ℤ) (n : ℕ) : List Tick :=
  (List.range n).map
    (fun (i : ℕ) => { time := t0 + ((i : ℤ) + 1) * dt, distracted := false,
                      reading := false })

theorem runTicks_statsTicks (cfg : Thresholds) (t0 dt : ℤ) (n : ℕ) :
    runTicks cfg (startClick (initGlobals t0) t0) (statsTicks t0 dt n) =
      { startClick (initGlobals t0) t0 with
          lastUpdateTime := t0 + (n : ℤ) * dt,
          totalFocusMs := (n : ℤ) * dt } := by
  induction n with
  | zero => simp [statsTicks, runTicks, startClick, initGlobals]
  | succ n ih =>
    have hsplit : statsTicks t0 dt (n + 1) =
        statsTicks t0 dt n ++
          [{ time := t0 + ((n : ℤ) + 1) * dt, distracted := false,
             reading := false }] := by
      simp [statsTicks, List.range_succ]
    rw [runTicks] at ih ⊢
    rw [hsplit, List.foldl_append, ih]
    simp only [List.foldl_cons, List.foldl_nil]
    rw [stepTick_calm cfg _ _ rfl rfl]
    simp only [startClick, initGlobals]
    congr 1 <;> first
      | rfl
      | (push_cast; ring)

/-- C7: feeding `n` calm frames spaced a fixed positive `dt` apart to a
fresh session leaves `totalFocusMs = n * dt` (the state stays FOCUSED
throughout) and `distractionCount = 0`; and in general one statistics tick
of an active session adds the elapsed delta to `totalFocusMs` exactly when
the current state is FOCUSED or READING, and adds nothing otherwise. -/
theorem c7_stats_accumulation (cfg : Thresholds) (t0 dt : ℤ) (n : ℕ)
    (hdt : 0 < dt) :
    ((runTicks cfg (startClick (initGlobals t0) t0)
          (statsTicks t0 dt n)).totalFocusMs = (n : ℤ) * dt ∧
      (runTicks cfg (startClick (initGlobals t0) t0)
          (statsTicks t0 dt n)).distractionCount = 0) ∧
    ∀ (s : AppState) (now : ℤ), s.isGuarding = true →
      (updateStats s now).totalFocusMs =
        s.totalFocusMs +
          (if s.focusState = .FOCUSED ∨ s.focusState = .READING
           then now - s.lastUpdateTime else 0) := by
  constructor
  · rw [runTicks_statsTicks]
    exact ⟨rfl, rfl⟩
  · intro s now hg
    simp only [updateStats, hg]
    split_ifs <;> simp_all

/-- Witness for C7: three calm frames 100 ms apart accumulate 300 ms. -/
theorem c7_witness :
    (0 : ℤ) < 100 ∧
      (runTicks THRESHOLDS (startClick (initGlobals 0) 0)
          (statsTicks 0 100 3)).totalFocusMs = (3 : ℕ) * (100 : ℤ) :=
  ⟨by decide,
    ((c7_stats_accumulation THRESHOLDS 0 100 3 (by decide)).1).1⟩

/-! Episode structure of a tick sequence, used to state C3: the maximal
unbroken runs of consecutive distracted ticks, and their durations. -/

/-- The maximal unbroken runs of consecutive distracted ticks of a
sequence, in order. -/
def distractedEpisodes : List Tick → List (List Tick)
  | [] => []
  | tk :: rest =>
    if tk.distracted then
      (tk :: rest.takeWhile (·.distracted)) ::
        distractedEpisodes (rest.dropWhile (·.distracted))
    else
      distractedEpisodes rest
termination_by l => l.length
decreasing_by
  · simpa using Nat.lt_succ_of_le ((List.dropWhile_sublist _).length_le)
  · simp

/-- The duration of an episode: last tick time minus first tick time. -/
def epDuration : List Tick → ℤ
  | [] => 0
  | tk :: rest => (rest.getLastD tk).time - tk.time

/-- The number of distracted episodes whose duration exceeds the debounce
delay. -/
def specEpisodeCount (delay : ℤ) (ts : List Tick) : ℕ :=
  (distractedEpisodes ts).countP (fun ep => decide (delay < epDuration ep))

/-- Tick timestamps appear in nondecreasing (wall-clock) order. -/
def timesSorted (ts : List Tick) : Prop :=
  ts.Pairwise (fun a b => a.time ≤ b.time)

theorem distractedEpisodes_nil : distractedEpisodes [] = [] := by
  rw [distractedEpisodes]

theorem distractedEpisodes_cons_calm (tk : Tick) (rest : List Tick)
    (hd : tk.distracted = false) :
    distractedEpisodes (tk :: rest) = distractedEpisodes rest := by
  rw [distractedEpisodes]
  simp [hd]

theorem distractedEpisodes_cons_distracted (tk : Tick) (rest : List Tick)
    (hd : tk.distracted = true) :
    distractedEpisodes (tk :: rest) =
      (tk :: rest.takeWhile (·.distracted)) ::
        distractedEpisodes (rest.dropWhile (·.distracted)) := by
  rw [distractedEpisodes]
  simp [hd]

theorem specEpisodeCount_nil (delay : ℤ) : specEpisodeCount delay [] = 0 := by
  rw [specEpisodeCount, distractedEpisodes_nil]
  rfl

theorem specEpisodeCount_cons_calm (delay : ℤ) (tk : Tick) (rest : List Tick)
    (hd : tk.distracted = false) :
    specEpisodeCount delay (tk :: rest) = specEpisodeCount delay rest := by
  rw [specEpisodeCount, distractedEpisodes_cons_calm tk rest hd,
    specEpisodeCount]

theorem specEpisodeCount_cons_distracted (delay : ℤ) (tk : Tick)
    (rest : List Tick) (hd : tk.distracted = true) :
    specEpisodeCount delay (tk :: rest) =
      (if delay < epDuration (tk :: rest.takeWhile (·.distracted))
        then 1 else 0) +
        specEpisodeCount delay (rest.dropWhile (·.distracted)) := by
  rw [specEpisodeCount, distractedEpisodes_cons_distracted tk rest hd,
    List.countP_cons]
  rw [specEpisodeCount]
  simp only [decide_eq_true_eq]
  split_ifs <;> omega

/-- In a time-sorted nonempty prefix, the default-carrying last element
bounds every element and the default itself. -/
theorem time_le_getLastD (l : List Tick) :
    ∀ d : Tick, (d :: l).Pairwise (fun a b => a.time ≤ b.time) →
      d.time ≤ (l.getLastD d).time ∧
        ∀ x ∈ l, x.time ≤ (l.getLastD d).time := by
  induction l with
  | nil => exact fun d _ => ⟨le_refl _, by simp⟩
  | cons a t ih =>
    intro d hs
    have hs' := (List.pairwise_cons.mp hs)
    have hda : d.time ≤ a.time := hs'.1 a (List.mem_cons_self a t)
    have huse := ih a hs'.2
    refine ⟨?_, ?_⟩
    · rw [List.getLastD_cons]
      exact hda.trans huse.1
    · intro x hx
      rw [List.getLastD_cons]
      rcases List.mem_cons.mp hx with rfl | hx2
      · exact huse.1
      · exact huse.2 x hx2

/-- The default-carrying last element is the default or a member. -/
theorem getLastD_mem_cons (l : List Tick) :
    ∀ d : Tick, l.getLastD d ∈ d :: l := by
  induction l with
  | nil => intro d; simp
  | cons a t ih =>
    intro d
    have := ih a
    rw [List.getLastD_cons]
    rcases List.mem_cons.mp this with h | h
    · rw [h]
      exact List.mem_cons_of_mem d (List.mem_cons_self a t)
    · exact List.mem_cons_of_mem d (List.mem_cons_of_mem a h)

/-- With a nonnegative delay and sorted times, some tick of the episode body
crosses the delay measured from the episode head exactly when the episode's
duration exceeds the delay. -/
theorem exists_past_iff_duration (delay : ℤ) (hd0 : 0 ≤ delay) (tk : Tick)
    (ep : List Tick)
    (hs : (tk :: ep).Pairwise (fun a b => a.time ≤ b.time)) :
    (∃ x ∈ ep, delay < x.time - tk.time) ↔
      delay < epDuration (tk :: ep) := by
  constructor
  · rintro ⟨x, hx, hxp⟩
    have hle := (time_le_getLastD ep tk hs).2 x hx
    simp only [epDuration]
    omega
  · intro hdur
    simp only [epDuration] at hdur
    rcases List.mem_cons.mp (getLastD_mem_cons ep tk) with h | h
    · rw [h] at hdur
      omega
    · exact ⟨ep.getLastD tk, h, hdur⟩

/-- The first tick surviving `dropWhile (·.distracted)` is calm. -/
theorem dropWhile_head_calm :
    ∀ (l : List Tick) (x : Tick) (xs : List Tick),
      l.dropWhile (·.distracted) = x :: xs → x.distracted = false := by
  intro l
  induction l with
  | nil => intro x xs h; cases h
  | cons a t ih =>
    intro x xs h
    rw [List.dropWhile_cons] at h
    split_ifs at h with ha
    · exact ih x xs h
    · injection h with h1 _
      subst h1
      simpa using ha

/-! Step-level characterization of the focus logic on the counter-relevant
fields, first for `focusLogic` alone, then lifted through `updateStats` to
the full per-frame step. -/

theorem focusLogic_enter_warning (cfg : Thresholds) (s : AppState)
    (now : ℤ) (r : Bool)
    (hf : s.focusState = .FOCUSED ∨ s.focusState = .READING) :
    focusLogic cfg s now true r =
      { s with focusState := .WARNING, warningStartTime := some now } := by
  obtain ⟨g, fs, dc, fst, lut, tfm, wst, al⟩ := s
  simp only at hf
  rcases hf with rfl | rfl <;> simp [focusLogic]

theorem focusLogic_warning_hold (cfg : Thresholds) (s : AppState)
    (now : ℤ) (r : Bool) (hf : s.focusState = .WARNING)
    (hp : ¬ cfg.delayMs < now - s.warningStartTime.getD 0) :
    focusLogic cfg s now true r = s := by
  obtain ⟨g, fs, dc, fst, lut, tfm, wst, al⟩ := s
  simp only at hf hp
  subst hf
  simp [focusLogic, hp]

theorem focusLogic_warning_past (cfg : Thresholds) (s : AppState)
    (now : ℤ) (r : Bool) (hf : s.focusState = .WARNING)
    (hp : cfg.delayMs < now - s.warningStartTime.getD 0) :
    focusLogic cfg s now true r =
      { s with focusState := .DISTRACTED,
               distractionCount := s.distractionCount + 1,
               alarmOn := true } := by
  obtain ⟨g, fs, dc, fst, lut, tfm, wst, al⟩ := s
  simp only at hf hp
  subst hf
  simp [focusLogic, playAlarm, hp]

theorem focusLogic_distracted_stay (cfg : Thresholds) (s : AppState)
    (now : ℤ) (r : Bool) (hf : s.focusState = .DISTRACTED) :
    focusLogic cfg s now true r = s := by
  obtain ⟨g, fs, dc, fst, lut, tfm, wst, al⟩ := s
  simp only at hf
  subst hf
  simp [focusLogic]

theorem focusLogic_calm (cfg : Thresholds) (s : AppState) (now : ℤ)
    (r : Bool) :
    ((focusLogic cfg s now false r).focusState = .FOCUSED ∨
      (focusLogic cfg s now false r).focusState = .READING) ∧
    (focusLogic cfg s now false r).distractionCount =
      s.distractionCount := by
  obtain ⟨g, fs, dc, fst, lut, tfm, wst, al⟩ := s
  cases fs <;> cases r <;> simp [focusLogic, stopAlarm]

theorem focusLogic_count_char (cfg : Thresholds) (s : AppState) (now : ℤ)
    (d r : Bool) :
    (focusLogic cfg s now d r).distractionCount =
      (if s.focusState = .WARNING ∧ d = true ∧
          cfg.delayMs < now - s.warningStartTime.getD 0
        then s.distractionCount + 1 else s.distractionCount) := by
  obtain ⟨g, fs, dc, fst, lut, tfm, wst, al⟩ := s
  cases fs <;> cases d <;>
    simp [focusLogic, playAlarm, stopAlarm] <;>
    split_ifs <;> simp_all

theorem runTicks_nil (cfg : Thresholds) (s : AppState) :
    runTicks cfg s [] = s := rfl

theorem runTicks_cons (cfg : Thresholds) (s : AppState) (tk : Tick)
    (rest : List Tick) :
    runTicks cfg s (tk :: rest) = runTicks cfg (stepTick cfg s tk) rest := rfl

theorem runTicks_append (cfg : Thresholds) (s : AppState)
    (l1 l2 : List Tick) :
    runTicks cfg s (l1 ++ l2) = runTicks cfg (runTicks cfg s l1) l2 := by
  simp [runTicks, List.foldl_append]

theorem stepTick_count_char (cfg : Thresholds) (s : AppState) (tk : Tick) :
    (stepTick cfg s tk).distractionCount =
      (if s.focusState = .WARNING ∧ tk.distracted = true ∧
          cfg.delayMs < tk.time - s.warningStartTime.getD 0
        then s.distractionCount + 1 else s.distractionCount) := by
  have h := focusLogic_count_char cfg (updateStats s tk.time) tk.time
    tk.distracted tk.reading
  rw [updateStats_focusState, updateStats_warningStartTime,
    updateStats_distractionCount] at h
  exact h

theorem stepTick_enter_warning (cfg : Thresholds) (s : AppState) (tk : Tick)
    (hf : s.focusState = .FOCUSED ∨ s.focusState = .READING)
    (hd : tk.distracted = true) :
    (stepTick cfg s tk).focusState = .WARNING ∧
    (stepTick cfg s tk).warningStartTime = some tk.time ∧
    (stepTick cfg s tk).distractionCount = s.distractionCount := by
  have hf1 : (updateStats s tk.time).focusState = .FOCUSED ∨
      (updateStats s tk.time).focusState = .READING := by
    rw [updateStats_focusState]; exact hf
  have h := focusLogic_enter_warning cfg (updateStats s tk.time) tk.time
    tk.reading hf1
  unfold stepTick onResultsSignals
  rw [hd, h]
  exact ⟨rfl, rfl, updateStats_distractionCount s tk.time⟩

theorem stepTick_warning_past (cfg : Thresholds) (s : AppState) (tk : Tick)
    (hf : s.focusState = .WARNING) (hd : tk.distracted = true)
    (hp : cfg.delayMs < tk.time - s.warningStartTime.getD 0) :
    (stepTick cfg s tk).focusState = .DISTRACTED ∧
    (stepTick cfg s tk).distractionCount = s.distractionCount + 1 := by
  have hf1 : (updateStats s tk.time).focusState = .WARNING := by
    rw [updateStats_focusState]; exact hf
  have hp1 : cfg.delayMs <
      tk.time - (updateStats s tk.time).warningStartTime.getD 0 := by
    rw [updateStats_warningStartTime]; exact hp
  have h := focusLogic_warning_past cfg (updateStats s tk.time) tk.time
    tk.reading hf1 hp1
  unfold stepTick onResultsSignals
  rw [hd, h]
  exact ⟨rfl, by rw [show ({ updateStats s tk.time with
    focusState := FocusState.DISTRACTED,
    distractionCount := (updateStats s tk.time).distractionCount + 1,
    alarmOn := true } : AppState).distractionCount =
      (updateStats s tk.time).distractionCount + 1 from rfl,
    updateStats_distractionCount]⟩

theorem stepTick_warning_hold (cfg : Thresholds) (s : AppState) (tk : Tick)
    (hf : s.focusState = .WARNING) (hd : tk.distracted = true)
    (hp : ¬ cfg.delayMs < tk.time - s.warningStartTime.getD 0) :
    (stepTick cfg s tk).focusState = .WARNING ∧
    (stepTick cfg s tk).warningStartTime = s.warningStartTime ∧
    (stepTick cfg s tk).distractionCount = s.distractionCount := by
  have hf1 : (updateStats s tk.time).focusState = .WARNING := by
    rw [updateStats_focusState]; exact hf
  have hp1 : ¬ cfg.delayMs <
      tk.time - (updateStats s tk.time).warningStartTime.getD 0 := by
    rw [updateStats_warningStartTime]; exact hp
  have h := focusLogic_warning_hold cfg (updateStats s tk.time) tk.time
    tk.reading hf1 hp1
  unfold stepTick onResultsSignals
  rw [hd, h]
  exact ⟨hf1, updateStats_warningStartTime s tk.time,
    updateStats_distractionCount s tk.time⟩

theorem stepTick_distracted_stay (cfg : Thresholds) (s : AppState)
    (tk : Tick) (hf : s.focusState = .DISTRACTED)
    (hd : tk.distracted = true) :
    (stepTick cfg s tk).focusState = .DISTRACTED ∧
    (stepTick cfg s tk).distractionCount = s.distractionCount := by
  have hf1 : (updateStats s tk.time).focusState = .DISTRACTED := by
    rw [updateStats_focusState]; exact hf
  have h := focusLogic_distracted_stay cfg (updateStats s tk.time) tk.time
    tk.reading hf1
  unfold stepTick onResultsSignals
  rw [hd, h]
  exact ⟨hf1, updateStats_distractionCount s tk.time⟩

theorem stepTick_calm_exit (cfg : Thresholds) (s : AppState) (tk : Tick)
    (hd : tk.distracted = false) :
    ((stepTick cfg s tk).focusState = .FOCUSED ∨
      (stepTick cfg s tk).focusState = .READING) ∧
    (stepTick cfg s tk).distractionCount = s.distractionCount := by
  have h := focusLogic_calm cfg (updateStats s tk.time) tk.time tk.reading
  rw [updateStats_distractionCount] at h
  unfold stepTick onResultsSignals
  rw [hd]
  exact h

/-- While the state is DISTRACTED, an unbroken run of distracted ticks keeps
it DISTRACTED and never touches the counter. -/
theorem run_distracted_stay (cfg : Thresholds) (ts : List Tick)
    (hall : ∀ tk ∈ ts, tk.distracted = true) :
    ∀ s : AppState, s.focusState = .DISTRACTED →
      (runTicks cfg s ts).focusState = .DISTRACTED ∧
      (runTicks cfg s ts).distractionCount = s.distractionCount := by
  induction ts with
  | nil => exact fun s hf => ⟨hf, rfl⟩
  | cons tk rest ih =>
    intro s hf
    have hd := hall tk (List.mem_cons_self tk rest)
    have hstep := stepTick_distracted_stay cfg s tk hf hd
    have hrest := ih (fun x hx => hall x (List.mem_cons_of_mem _ hx))
      (stepTick cfg s tk) hstep.1
    rw [runTicks_cons]
    exact ⟨hrest.1, by rw [hrest.2, hstep.2]⟩

/-- While the state is WARNING with start `t0`, an unbroken run of
distracted ticks either crosses the delay at some tick (ending DISTRACTED
with the counter incremented exactly once) or never does (staying WARNING
with start `t0` and the counter untouched). -/
theorem run_warning_phase (cfg : Thresholds) (ts : List Tick)
    (hall : ∀ tk ∈ ts, tk.distracted = true) (t0 : ℤ) :
    ∀ s : AppState, s.focusState = .WARNING →
      s.warningStartTime = some t0 →
      (((∃ tk ∈ ts, cfg.delayMs < tk.time - t0) →
          (runTicks cfg s ts).focusState = .DISTRACTED ∧
          (runTicks cfg s ts).distractionCount = s.distractionCount + 1) ∧
        ((∀ tk ∈ ts, ¬ cfg.delayMs < tk.time - t0) →
          (runTicks cfg s ts).focusState = .WARNING ∧
          (runTicks cfg s ts).warningStartTime = some t0 ∧
          (runTicks cfg s ts).distractionCount = s.distractionCount)) := by
  induction ts with
  | nil =>
    intro s hf hw
    refine ⟨?_, ?_⟩
    · rintro ⟨tk, htk, _⟩
      cases htk
    · intro _
      exact ⟨hf, hw, rfl⟩
  | cons tk rest ih =>
    intro s hf hw
    have hd := hall tk (List.mem_cons_self tk rest)
    have hall' : ∀ x ∈ rest, x.distracted = true :=
      fun x hx => hall x (List.mem_cons_of_mem _ hx)
    by_cases hp : cfg.delayMs < tk.time - t0
    · have hstep := stepTick_warning_past cfg s tk hf hd
        (by rw [hw]; exact hp)
      have hrest := run_distracted_stay cfg rest hall'
        (stepTick cfg s tk) hstep.1
      refine ⟨?_, ?_⟩
      · intro _
        rw [runTicks_cons]
        exact ⟨hrest.1, by rw [hrest.2, hstep.2]⟩
      · intro hnone
        exact absurd hp (hnone tk (List.mem_cons_self tk rest))
    · have hstep := stepTick_warning_hold cfg s tk hf hd
        (by rw [hw]; exact hp)
      have ih' := ih hall' (stepTick cfg s tk) hstep.1
        (by rw [hstep.2.1, hw])
      refine ⟨?_, ?_⟩
      · rintro ⟨x, hx, hxp⟩
        rcases List.mem_cons.mp hx with rfl | hx2
        · exact absurd hxp hp
        · have h2 := ih'.1 ⟨x, hx2, hxp⟩
          rw [runTicks_cons]
          exact ⟨h2.1, by rw [h2.2, hstep.2.2]⟩
      · intro hnone
        have h2 := ih'.2 (fun x hx => hnone x (List.mem_cons_of_mem _ hx))
        rw [runTicks_cons]
        exact ⟨h2.1, h2.2.1, by rw [h2.2.2, hstep.2.2]⟩

/-- Main counting lemma: from a calm state (or at a calm next tick), the
final counter adds exactly the number of distracted episodes whose duration
exceeds the (nonnegative) delay. -/
theorem run_count_episodes (cfg : Thresholds) (hd0 : 0 ≤ cfg.delayMs) :
    ∀ (n : ℕ) (ts : List Tick), ts.length ≤ n → timesSorted ts →
      ∀ s : AppState,
        ((s.focusState = .FOCUSED ∨ s.focusState = .READING) ∨
          (∀ tk, ts.head? = some tk → tk.distracted = false)) →
        (runTicks cfg s ts).distractionCount =
          s.distractionCount + specEpisodeCount cfg.delayMs ts := by
  intro n
  induction n with
  | zero =>
    intro ts hlen _ s _
    have hnil : ts = [] := List.eq_nil_of_length_eq_zero
      (Nat.le_zero.mp hlen)
    subst hnil
    rw [runTicks_nil, specEpisodeCount_nil]
    omega
  | succ n ih =>
    intro ts hlen hsort s hentry
    cases ts with
    | nil =>
      rw [runTicks_nil, specEpisodeCount_nil]
      omega
    | cons tk rest =>
      have hsort' : timesSorted rest := (List.pairwise_cons.mp hsort).2
      have hlen' : rest.length ≤ n := by
        simpa using Nat.succ_le_succ_iff.mp hlen
      by_cases hd : tk.distracted = true
      · -- a distracted episode begins here; the entry state must be calm
        have hcalm : s.focusState = .FOCUSED ∨ s.focusState = .READING := by
          rcases hentry with h | h
          · exact h
          · have := h tk rfl
            rw [hd] at this
            cases this
        have hstep := stepTick_enter_warning cfg s tk hcalm hd
        have hallep : ∀ x ∈ rest.takeWhile (·.distracted),
            x.distracted = true :=
          fun x hx => List.mem_takeWhile_imp hx
        have hsplit : tk :: rest =
            tk :: (rest.takeWhile (·.distracted) ++
              rest.dropWhile (·.distracted)) := by
          rw [List.takeWhile_append_dropWhile]
        have hrun : runTicks cfg s (tk :: rest) =
            runTicks cfg
              (runTicks cfg (stepTick cfg s tk)
                (rest.takeWhile (·.distracted)))
              (rest.dropWhile (·.distracted)) := by
          rw [hsplit, runTicks_cons, runTicks_append]
        have hsortep : (tk :: rest.takeWhile (·.distracted)).Pairwise
            (fun a b => a.time ≤ b.time) := by
          have h1 := List.pairwise_cons.mp hsort
          refine List.pairwise_cons.mpr ⟨?_, ?_⟩
          · intro x hx
            exact h1.1 x ((List.takeWhile_sublist _).mem hx)
          · exact h1.2.sublist (List.takeWhile_sublist _)
        have hphase := run_warning_phase cfg (rest.takeWhile (·.distracted))
          hallep tk.time (stepTick cfg s tk) hstep.1 hstep.2.1
        have hsort2 : timesSorted (rest.dropWhile (·.distracted)) :=
          hsort'.sublist (List.dropWhile_sublist _)
        have hlen2 : (rest.dropWhile (·.distracted)).length ≤ n :=
          le_trans (List.dropWhile_sublist _).length_le hlen'
        have hentry2 : ∀ x, (rest.dropWhile (·.distracted)).head? = some x →
            x.distracted = false := by
          intro x hx
          cases h2 : rest.dropWhile (·.distracted) with
          | nil => rw [h2] at hx; cases hx
          | cons y ys =>
            rw [h2] at hx
            have hy : y = x := by injection hx
            rw [← hy]
            exact dropWhile_head_calm rest y ys h2
        rw [hrun]
        rw [specEpisodeCount_cons_distracted cfg.delayMs tk rest hd]
        by_cases hex : ∃ x ∈ rest.takeWhile (·.distracted),
            cfg.delayMs < x.time - tk.time
        · have hmid := hphase.1 hex
          have hfin := ih (rest.dropWhile (·.distracted)) hlen2 hsort2
            (runTicks cfg (stepTick cfg s tk)
              (rest.takeWhile (·.distracted)))
            (Or.inr hentry2)
          rw [hfin, hmid.2, hstep.2.2]
          have hdur : cfg.delayMs <
              epDuration (tk :: rest.takeWhile (·.distracted)) :=
            (exists_past_iff_duration cfg.delayMs hd0 tk _ hsortep).mp hex
          rw [if_pos hdur]
          omega
        · have hmid := hphase.2 (by
            intro x hx hxp
            exact hex ⟨x, hx, hxp⟩)
          have hfin := ih (rest.dropWhile (·.distracted)) hlen2 hsort2
            (runTicks cfg (stepTick cfg s tk)
              (rest.takeWhile (·.distracted)))
            (Or.inr hentry2)
          rw [hfin, hmid.2.2, hstep.2.2]
          have hdur : ¬ cfg.delayMs <
              epDuration (tk :: rest.takeWhile (·.distracted)) := by
            intro hc
            exact hex ((exists_past_iff_duration cfg.delayMs hd0 tk _
              hsortep).mpr hc)
          rw [if_neg hdur]
          omega
      · -- calm head: one calm step, then recurse
        have hd' : tk.distracted = false := by
          cases h : tk.distracted
          · rfl
          · exact absurd h hd
        have hstep := stepTick_calm_exit cfg s tk hd'
        have hfin := ih rest hlen' hsort' (stepTick cfg s tk)
          (Or.inl hstep.1)
        rw [runTicks_cons, hfin, hstep.2,
          specEpisodeCount_cons_calm cfg.delayMs tk rest hd']

/-- C3: the counter increments exactly on the WARNING-to-DISTRACTED
transition (a distracted tick past the delay while in WARNING); while the
state remains DISTRACTED under a still-distracted signal no further
increment occurs; and for every wall-clock-ordered tick sequence processed
from the session-start state, the final counter equals the number of
unbroken distracted episodes whose duration exceeds the (nonnegative)
debounce delay. -/
theorem c3_once_per_episode (cfg : Thresholds) :
    (∀ (s : AppState) (tk : Tick),
        (stepTick cfg s tk).distractionCount =
          (if s.focusState = .WARNING ∧ tk.distracted = true ∧
              cfg.delayMs < tk.time - s.warningStartTime.getD 0
            then s.distractionCount + 1 else s.distractionCount)) ∧
    (∀ (s : AppState) (tk : Tick), s.focusState = .DISTRACTED →
        tk.distracted = true →
        (stepTick cfg s tk).focusState = .DISTRACTED ∧
        (stepTick cfg s tk).distractionCount = s.distractionCount) ∧
    (0 ≤ cfg.delayMs → ∀ (t0 : ℤ) (ts : List Tick), timesSorted ts →
        (runTicks cfg (startClick (initGlobals t0) t0)
            ts).distractionCount =
          specEpisodeCount cfg.delayMs ts) := by
  refine ⟨stepTick_count_char cfg, stepTick_distracted_stay cfg, ?_⟩
  intro hd0 t0 ts hsort
  have h := run_count_episodes cfg hd0 ts.length ts (le_refl _) hsort
    (startClick (initGlobals t0) t0) (Or.inl (Or.inl rfl))
  rw [h]
  simp [startClick, initGlobals]

/-- A tick sequence with two distracted episodes: one of duration 5000 ms
(counted under the 4000 ms delay) and one of duration 500 ms (not
counted). -/
def c3ticks : List Tick :=
  [{ time := 0, distracted := true, reading := false },
   { time := 5000, distracted := true, reading := false },
   { time := 6000, distracted := false, reading := false },
   { time := 7000, distracted := true, reading := false },
   { time := 7500, distracted := true, reading := false }]

/-- Witness for C3 on `c3ticks`: the run counter agrees with the episode
count, and both are 1. -/
theorem c3_witness :
    ((0 : ℤ) ≤ THRESHOLDS.delayMs ∧ timesSorted c3ticks) ∧
    (runTicks THRESHOLDS (startClick (initGlobals 0) 0)
        c3ticks).distractionCount = specEpisodeCount THRESHOLDS.delayMs
        c3ticks ∧
    (runTicks THRESHOLDS (startClick (initGlobals 0) 0)
        c3ticks).distractionCount = 1 :=
  ⟨⟨by decide, by unfold timesSorted; decide⟩,
    (c3_once_per_episode THRESHOLDS).2.2 (by decide) 0 c3ticks
      (by unfold timesSorted; decide),
    by decide⟩

end FocusGuard
